import Mathlib

/-!
Shallow embedding of the core of `Dj Archetex.cpp` (DJ Set Architect):
the generic growable container `DynamicArray<T>`, the owning
`TrackManager`, the polymorphic track hierarchy (`LocalTrack`,
`StreamTrack`), and the legacy library functions (`computeAverageBPM`,
`recommendNextTracks`).

Machine integers of the program (`int`) are modelled as `Int` (the
program works at toy scale, far from any overflow); sizes and
capacities, which the code keeps non-negative, are `Nat` with indices
passed as `Int` so that negative indices reach the bounds checks just
as in the source.  The backing store of `DynamicArray` is modelled as
the list of its first `size` elements; slots past `size` are never
read by the code, so they are not part of the state.
-/

namespace DjArchetex

/-- `enum EnergyLevel { LOW = 1, MEDIUM = 2, HIGH = 3 }`. -/
inductive EnergyLevel where
  | LOW
  | MEDIUM
  | HIGH
deriving DecidableEq, Repr

/-- The underlying integer of the C++ enum: `LOW = 1, MEDIUM = 2, HIGH = 3`. -/
def EnergyLevel.toInt : EnergyLevel → Int
  | .LOW => 1
  | .MEDIUM => 2
  | .HIGH => 3

/-- The legacy `struct Track` (Weeks 1-4). -/
structure Track where
  title : String
  artist : String
  genre : String
  key : String
  bpm : Int
  energy : EnergyLevel
  notes : String
deriving DecidableEq, Repr

/-- The function template `absValue<T>` instantiated at `int`:
`(x < 0) ? -x : x`. -/
def absValue (x : Int) : Int :=
  if x < 0 then -x else x

/-- `const int BPM_RANGE = 5` inside `recommendNextTracks`. -/
def BPM_RANGE : Int := 5

/-- The class template `DynamicArray<T>`: the list of the first `size`
elements of the backing store, together with the current capacity.
`size` is `items.length`. -/
structure DynamicArray (T : Type) where
  items : List T
  capacity : Nat
deriving DecidableEq, Repr

namespace DynamicArray

variable {T : Type}

/-- `size` of the container (the `size` field of the C++ class). -/
def getSize (a : DynamicArray T) : Nat := a.items.length

/-- `getCapacity()`. -/
def getCapacity (a : DynamicArray T) : Nat := a.capacity

/-- The constructor `DynamicArray(int cap = 2)`: starts empty; the
capacity is the requested one, bumped up to 2 when below 2. -/
def mkArr (T : Type) (cap : Int) : DynamicArray T :=
  { items := [], capacity := if cap < 2 then 2 else cap.toNat }

/-- `pushBack(const T& value)`: when `size >= capacity`, `resize(capacity * 2)`
first; then append the value and increment `size`. -/
def pushBack (a : DynamicArray T) (value : T) : DynamicArray T :=
  { items := a.items ++ [value]
    capacity := if a.items.length ≥ a.capacity then a.capacity * 2 else a.capacity }

/-- `removeAt(int index) -> bool`: out-of-range index returns `false`
with no mutation; otherwise the elements after `index` are shifted one
slot left (`take index ++ drop (index+1)`), `size` is decremented, and
if `size > 0 && size <= capacity / 4 && capacity > 2` (all in C++ `int`
arithmetic, so `/` truncates) the capacity is halved by
`resize(capacity / 2)`.  Returns the success flag with the new state. -/
def removeAt (a : DynamicArray T) (index : Int) : Bool × DynamicArray T :=
  if index < 0 ∨ (a.items.length : Int) ≤ index then
    (false, a)
  else
    let items' := a.items.take index.toNat ++ a.items.drop (index.toNat + 1)
    let cap' :=
      if 0 < items'.length ∧ items'.length ≤ a.capacity / 4 ∧ 2 < a.capacity then
        a.capacity / 2
      else
        a.capacity
    (true, { items := items', capacity := cap' })

/-- `at(int index) const`: returns `T()` (the default value: `nullptr`
for pointers, `0` for `int`) on an out-of-range index, and the stored
element otherwise. -/
def atIdx [Inhabited T] (a : DynamicArray T) (index : Int) : T :=
  if index < 0 ∨ (a.items.length : Int) ≤ index then
    default
  else
    a.items.getD index.toNat default

end DynamicArray

/-- The composition helper class `MixNotes`. -/
structure MixNotes where
  notes : String
deriving DecidableEq, Repr

/-- Derived class `LocalTrack`: common fields `title`, `bpm`, `energy`
from `TrackBase` plus `filePath` and composed `MixNotes`. -/
structure LocalTrack where
  title : String
  bpm : Int
  energy : EnergyLevel
  filePath : String
  notes : MixNotes
deriving DecidableEq, Repr

/-- `LocalTrack::operator==`: identity is `(title, filePath)` equality;
`bpm`, `energy` and the mix notes are ignored. -/
def LocalTrack.beq (a b : LocalTrack) : Bool :=
  a.title == b.title && a.filePath == b.filePath

/-- Derived class `StreamTrack`: common fields plus `platform` and
composed `MixNotes`. -/
structure StreamTrack where
  title : String
  bpm : Int
  energy : EnergyLevel
  platform : String
  notes : MixNotes
deriving DecidableEq, Repr

/-- The closed polymorphic hierarchy under the abstract `TrackBase`:
every object is one of the two concrete variants. -/
inductive TrackBase where
  | ofLocal (t : LocalTrack)
  | ofStream (t : StreamTrack)
deriving DecidableEq, Repr

/-- A `TrackBase*` value: either `nullptr` or a handle to a track
object. -/
abbrev TrackPtr := Option TrackBase

/-- `TrackManager`: owns `TrackBase*` handles stored in a
`DynamicArray<TrackBase*>`. -/
structure TrackManager where
  items : DynamicArray TrackPtr
deriving DecidableEq, Repr

namespace TrackManager

/-- The constructor `TrackManager(int cap = 2)`, delegating to the
container constructor. -/
def create (cap : Int) : TrackManager :=
  { items := DynamicArray.mkArr TrackPtr cap }

/-- `getSize()`. -/
def getSize (m : TrackManager) : Nat := m.items.getSize

/-- `getCapacity()`. -/
def getCapacity (m : TrackManager) : Nat := m.items.getCapacity

/-- `add(TrackBase* p)`: appends the handle; the manager takes
ownership. -/
def add (m : TrackManager) (p : TrackPtr) : TrackManager :=
  { items := m.items.pushBack p }

/-- `TrackManager::removeAt(int index) -> bool`: invalid index returns
`false` with no effect; otherwise the owned object is destroyed
(`delete doomed`, not observable in the pure model) and the slot is
removed by the container's `removeAt`, closing the gap. -/
def removeAt (m : TrackManager) (index : Int) : Bool × TrackManager :=
  if index < 0 ∨ (m.items.getSize : Int) ≤ index then
    (false, m)
  else
    let r := m.items.removeAt index
    (r.1, { items := r.2 })

/-- `operator[](int index) const`: bounds-checked access via the
container's `at`; returns `nullptr` on an invalid index. -/
def getAt (m : TrackManager) (index : Int) : TrackPtr :=
  m.items.atIdx index

/-- `operator+=(TrackBase* p)`: delegates to `this->add(p)` and returns
the updated manager. -/
def opPlusEq (m : TrackManager) (p : TrackPtr) : TrackManager :=
  m.add p

/-- `operator-=(int index)`: delegates to `this->removeAt(index)`,
discards the returned flag, and returns the updated manager. -/
def opMinusEq (m : TrackManager) (index : Int) : TrackManager :=
  (m.removeAt index).2

end TrackManager

/-- `computeAverageBPM(const Track library[], int count)`: `0.0` for an
empty library, otherwise the integer sum of BPMs divided by the count,
in exact (real) division as the spec reads the double arithmetic. -/
def computeAverageBPM (library : List Track) : Rat :=
  if library.length = 0 then 0
  else ((library.map Track.bpm).sum : Rat) / (library.length : Rat)

/-- `countGenreMatches(const Track library[], int count, const string& genre)`. -/
def countGenreMatches (library : List Track) (genre : String) : Nat :=
  (library.filter (fun t => t.genre == genre)).length

/-- The compound condition of `recommendNextTracks` on energy:
`library[i].energy == currentEnergy || library[i].energy == currentEnergy + 1`.
In C++ the enum operand is promoted to `int`, so both comparisons are
on the underlying integers `LOW = 1, MEDIUM = 2, HIGH = 3`. -/
def energyCondition (e currentEnergy : EnergyLevel) : Bool :=
  e.toInt == currentEnergy.toInt || e.toInt == currentEnergy.toInt + 1

/-- `recommendNextTracks(const Track library[], int count)` reduced to
its selection rule: the tracks printed are exactly those with
`absValue(bpm - currentBPM) <= BPM_RANGE` and the energy condition. -/
def recommendNextTracks (library : List Track) (currentBPM : Int)
    (currentEnergy : EnergyLevel) : List Track :=
  library.filter (fun t =>
    decide (absValue (t.bpm - currentBPM) ≤ BPM_RANGE) &&
    energyCondition t.energy currentEnergy)

/-- An operation on the generic container, for stating invariants over
arbitrary operation sequences. -/
inductive ArrOp (T : Type) where
  | push (v : T)
  | remove (i : Int)

/-- Apply one container operation (the state part). -/
def applyArrOp {T : Type} (a : DynamicArray T) : ArrOp T → DynamicArray T
  | .push v => a.pushBack v
  | .remove i => (a.removeAt i).2

/-- Run a sequence of operations from a freshly constructed container. -/
def runArrOps (T : Type) (cap : Int) (ops : List (ArrOp T)) : DynamicArray T :=
  ops.foldl applyArrOp (DynamicArray.mkArr T cap)

/-- The container invariant: capacity at least 2 and size at most
capacity. -/
def DynamicArray.inv {T : Type} (a : DynamicArray T) : Prop :=
  2 ≤ a.capacity ∧ a.items.length ≤ a.capacity

/-- Claim C1, as stated, is false on the code: after a removal whose
resulting size is at most a quarter of the capacity and whose capacity
exceeds 2, the capacity need not be halved.  Concretely, a container of
capacity 4 holding one element: `removeAt 0` succeeds, the resulting
size 0 is at most `4 / 4` and the capacity 4 exceeds 2, yet the
capacity stays 4 (the code additionally requires `size > 0` before
shrinking). -/
theorem C1_counterexample :
    (((DynamicArray.mkArr Int 4).pushBack 0).removeAt 0).1 = true ∧
    (((DynamicArray.mkArr Int 4).pushBack 0).removeAt 0).2.getSize ≤
      ((DynamicArray.mkArr Int 4).pushBack 0).getCapacity / 4 ∧
    2 < ((DynamicArray.mkArr Int 4).pushBack 0).getCapacity ∧
    (((DynamicArray.mkArr Int 4).pushBack 0).removeAt 0).2.getCapacity ≠
      ((DynamicArray.mkArr Int 4).pushBack 0).getCapacity / 2 := by decide

/-- Claim C1 (amended): after a removal at a valid index, if the
resulting size is positive and at most one quarter of the capacity
(integer division) and the capacity is greater than 2, then the
capacity is halved. -/
theorem C1_shrink_amended (T : Type) (a : DynamicArray T) (i : Int)
    (hvalid : (a.removeAt i).1 = true)
    (hpos : 0 < (a.removeAt i).2.getSize)
    (hquarter : (a.removeAt i).2.getSize ≤ a.getCapacity / 4)
    (hcap : 2 < a.getCapacity) :
    (a.removeAt i).2.getCapacity = a.getCapacity / 2 := by
  by_cases h : i < 0 ∨ (a.items.length : Int) ≤ i
  · simp [DynamicArray.removeAt, h] at hvalid
  · simp only [DynamicArray.removeAt, if_neg h, DynamicArray.getSize,
      DynamicArray.getCapacity] at hpos hquarter ⊢
    rw [if_pos ⟨hpos, hquarter, hcap⟩]

/-- Witness for C1 (amended), at a container of capacity 8 holding two
elements: removing one leaves one element, at most `8 / 4`, and the
capacity is halved to 4. -/
theorem C1_shrink_amended_witness :
    ((((DynamicArray.mkArr Int 8).pushBack 0).pushBack 1).removeAt 0).2.getCapacity =
      (((DynamicArray.mkArr Int 8).pushBack 0).pushBack 1).getCapacity / 2 :=
  C1_shrink_amended Int (((DynamicArray.mkArr Int 8).pushBack 0).pushBack 1) 0
    (by decide) (by decide) (by decide) (by decide)

/-- Claim C2: for every container state and valid index `i` in
`[0, size)`, `removeAt i` returns `true`, reduces the size by exactly
one, keeps every element below `i` in place and shifts every element
originally above `i` down by one position, preserving the relative
order of the remaining elements. -/
theorem C2_removeAt_valid (T : Type) (a : DynamicArray T) (i : Int)
    (h0 : 0 ≤ i) (h1 : i < (a.getSize : Int)) :
    (a.removeAt i).1 = true ∧
    (a.removeAt i).2.getSize = a.getSize - 1 ∧
    (∀ j : Nat, j < i.toNat → (a.removeAt i).2.items[j]? = a.items[j]?) ∧
    (∀ j : Nat, i.toNat ≤ j → (a.removeAt i).2.items[j]? = a.items[j + 1]?) := by
  have hk : i.toNat < a.items.length := by
    simp only [DynamicArray.getSize] at h1
    omega
  have hnot : ¬(i < 0 ∨ (a.items.length : Int) ≤ i) := by
    push_neg
    constructor
    · exact h0
    · simp only [DynamicArray.getSize] at h1
      exact h1
  simp only [DynamicArray.removeAt, if_neg hnot, DynamicArray.getSize]
  refine ⟨trivial, ?_, ?_, ?_⟩
  · simp only [List.length_append, List.length_take, List.length_drop]
    omega
  · intro j hj
    rw [List.getElem?_append_left (by simp only [List.length_take]; omega)]
    rw [List.getElem?_take, if_pos hj]
  · intro j hj
    rw [List.getElem?_append_right (by simp only [List.length_take]; omega)]
    rw [List.getElem?_drop]
    congr 1
    simp only [List.length_take]
    omega

/-- Witness for C2: removing index 1 of a two-element container leaves
one element. -/
theorem C2_removeAt_valid_witness :
    ((((DynamicArray.mkArr Int 2).pushBack 10).pushBack 20).removeAt 1).2.getSize =
      (((DynamicArray.mkArr Int 2).pushBack 10).pushBack 20).getSize - 1 :=
  (C2_removeAt_valid Int (((DynamicArray.mkArr Int 2).pushBack 10).pushBack 20) 1
    (by decide) (by decide)).2.1

/-- Claim C3: `removeAt` on any index outside `[0, size)` returns
`false` and leaves the state unchanged, both for the generic container
and for the ownership manager; on a valid index the manager removes
the slot, closing the gap (the `delete` of the owned object is a
memory effect with no observable trace in the pure state). -/
theorem C3_removeAt_invalid :
    (∀ (T : Type) (a : DynamicArray T) (i : Int),
      (i < 0 ∨ (a.getSize : Int) ≤ i) → a.removeAt i = (false, a)) ∧
    (∀ (m : TrackManager) (i : Int),
      (i < 0 ∨ (m.getSize : Int) ≤ i) → m.removeAt i = (false, m)) ∧
    (∀ (m : TrackManager) (i : Int), 0 ≤ i → i < (m.getSize : Int) →
      (m.removeAt i).1 = true ∧
      (m.removeAt i).2.items.items =
        m.items.items.take i.toNat ++ m.items.items.drop (i.toNat + 1)) := by
  refine ⟨?_, ?_, ?_⟩
  · intro T a i h
    simp only [DynamicArray.getSize] at h
    simp only [DynamicArray.removeAt, if_pos h]
  · intro m i h
    simp only [TrackManager.getSize] at h
    simp only [TrackManager.removeAt, if_pos h]
  · intro m i h0 h1
    simp only [TrackManager.getSize, DynamicArray.getSize] at h1
    have hb : ¬(i < 0 ∨ (m.items.getSize : Int) ≤ i) := by
      push_neg
      exact ⟨h0, by simpa [DynamicArray.getSize] using h1⟩
    have hb2 : ¬(i < 0 ∨ (m.items.items.length : Int) ≤ i) := by
      simpa [DynamicArray.getSize] using hb
    simp only [TrackManager.removeAt, if_neg hb, DynamicArray.removeAt, if_neg hb2]
    exact ⟨trivial, trivial⟩

/-- Witness for C3: removing index 5 from the empty manager fails and
leaves it unchanged. -/
theorem C3_removeAt_invalid_witness :
    (TrackManager.create 2).removeAt 5 = (false, TrackManager.create 2) :=
  C3_removeAt_invalid.2.1 (TrackManager.create 2) 5 (Or.inr (by decide))

/-- Claim C4: the capacity starts at the caller-supplied minimum
floored at 2 (and the container starts empty); a `pushBack` that would
make the size exceed the capacity exactly doubles the capacity, and
any other `pushBack` leaves it unchanged. -/
theorem C4_capacity_policy (T : Type) (cap : Int) (a : DynamicArray T) (v : T) :
    (DynamicArray.mkArr T cap).getCapacity = max 2 cap.toNat ∧
    (DynamicArray.mkArr T cap).getSize = 0 ∧
    (a.getCapacity ≤ a.getSize → (a.pushBack v).getCapacity = 2 * a.getCapacity) ∧
    (a.getSize < a.getCapacity → (a.pushBack v).getCapacity = a.getCapacity) := by
  refine ⟨?_, rfl, ?_, ?_⟩
  · simp only [DynamicArray.mkArr, DynamicArray.getCapacity]
    split <;> omega
  · intro h
    simp only [DynamicArray.getCapacity, DynamicArray.getSize] at h
    simp only [DynamicArray.pushBack, DynamicArray.getCapacity, if_pos h, Nat.mul_comm]
  · intro h
    simp only [DynamicArray.getCapacity, DynamicArray.getSize] at h
    have hn : ¬(a.items.length ≥ a.capacity) := by omega
    simp only [DynamicArray.pushBack, DynamicArray.getCapacity, if_neg hn]

/-- Witness for C4: the third `pushBack` into a capacity-2 container
doubles the capacity to 4. -/
theorem C4_capacity_policy_witness :
    ((((DynamicArray.mkArr Int 2).pushBack 10).pushBack 20).pushBack 30).getCapacity =
      2 * (((DynamicArray.mkArr Int 2).pushBack 10).pushBack 20).getCapacity :=
  (C4_capacity_policy Int 2 (((DynamicArray.mkArr Int 2).pushBack 10).pushBack 20)
    30).2.2.1 (by decide)

/-- Claim C5: indexed access on an index outside `[0, size)` never
signals an error and returns the type-appropriate sentinel: `none`
(the null pointer) for the handle instantiation, `0` for the `int`
instantiation, and `none` for the manager subscript; on an index
inside `[0, size)` it returns the stored element. -/
theorem C5_at_sentinel :
    (∀ (a : DynamicArray TrackPtr) (i : Int),
      (i < 0 ∨ (a.getSize : Int) ≤ i) → a.atIdx i = none) ∧
    (∀ (a : DynamicArray Int) (i : Int),
      (i < 0 ∨ (a.getSize : Int) ≤ i) → a.atIdx i = 0) ∧
    (∀ (m : TrackManager) (i : Int),
      (i < 0 ∨ (m.getSize : Int) ≤ i) → m.getAt i = none) ∧
    (∀ (T : Type) (inst : Inhabited T) (a : DynamicArray T) (i : Int),
      0 ≤ i → i < (a.getSize : Int) →
      a.items[i.toNat]? = some (@DynamicArray.atIdx T inst a i)) := by
  refine ⟨?_, ?_, ?_, ?_⟩
  · intro a i h
    simp only [DynamicArray.getSize] at h
    simp only [DynamicArray.atIdx, if_pos h]
    rfl
  · intro a i h
    simp only [DynamicArray.getSize] at h
    simp only [DynamicArray.atIdx, if_pos h]
    rfl
  · intro m i h
    simp only [TrackManager.getSize, DynamicArray.getSize] at h
    simp only [TrackManager.getAt, DynamicArray.atIdx, DynamicArray.getSize, if_pos h]
    rfl
  · intro T inst a i h0 h1
    simp only [DynamicArray.getSize] at h1
    have hk : i.toNat < a.items.length := by omega
    have hb : ¬(i < 0 ∨ (a.items.length : Int) ≤ i) := by push_neg; exact ⟨h0, h1⟩
    simp only [DynamicArray.atIdx, if_neg hb]
    rw [List.getD_eq_getElem _ _ hk, List.getElem?_eq_getElem hk]

/-- Witness for C5: index 7 of a one-element handle container yields
the null sentinel. -/
theorem C5_at_sentinel_witness :
    ((DynamicArray.mkArr TrackPtr 2).pushBack none).atIdx 7 = none :=
  C5_at_sentinel.1 ((DynamicArray.mkArr TrackPtr 2).pushBack none) 7
    (Or.inr (by decide))

/-- Claim C6: the manager operators `+=` and `-=` are equivalent to
`add` and `removeAt` with identical contracts: `+= p` yields the state
of `add p` (appending the handle), and `-= i` yields the state of
`removeAt i`, in particular leaving the manager unchanged on an
invalid index. -/
theorem C6_operator_equivalence :
    (∀ (m : TrackManager) (p : TrackPtr), m.opPlusEq p = m.add p) ∧
    (∀ (m : TrackManager) (i : Int), m.opMinusEq i = (m.removeAt i).2) ∧
    (∀ (m : TrackManager) (i : Int),
      (i < 0 ∨ (m.getSize : Int) ≤ i) → m.opMinusEq i = m) ∧
    (∀ (m : TrackManager) (p : TrackPtr),
      (m.opPlusEq p).items.items = m.items.items ++ [p]) := by
  refine ⟨fun m p => rfl, fun m i => rfl, ?_, fun m p => rfl⟩
  intro m i h
  simp only [TrackManager.getSize] at h
  simp only [TrackManager.opMinusEq, TrackManager.removeAt, if_pos h]

/-- Witness for C6: `-= (-1)` on the empty manager leaves it
unchanged. -/
theorem C6_operator_equivalence_witness :
    (TrackManager.create 2).opMinusEq (-1) = TrackManager.create 2 :=
  C6_operator_equivalence.2.2.1 (TrackManager.create 2) (-1) (Or.inl (by decide))

/-- Claim C7: two local tracks compare equal under `operator==` exactly
when their title and file path agree; in particular identical title
and path with different BPM and notes compare equal, and a differing
file path makes them unequal. -/
theorem C7_localtrack_identity :
    (∀ a b : LocalTrack, a.beq b = true ↔
      (a.title = b.title ∧ a.filePath = b.filePath)) ∧
    LocalTrack.beq ⟨"Song", 128, .HIGH, "song.wav", ⟨"x"⟩⟩
      ⟨"Song", 100, .LOW, "song.wav", ⟨"different notes"⟩⟩ = true ∧
    LocalTrack.beq ⟨"Song", 128, .HIGH, "song.wav", ⟨"x"⟩⟩
      ⟨"Song", 128, .HIGH, "other.wav", ⟨"x"⟩⟩ = false := by
  refine ⟨?_, by decide, by decide⟩
  intro a b
  simp [LocalTrack.beq, Bool.and_eq_true, beq_iff_eq]

/-- Claim C8: `computeAverageBPM` of an empty library is 0; of a
non-empty library it is the sum of the BPM values divided by the
count; over BPMs 100, 110 and 130 it is exactly 340/3. -/
theorem C8_averageBPM :
    computeAverageBPM [] = 0 ∧
    (∀ library : List Track, library ≠ [] →
      computeAverageBPM library =
        ((library.map Track.bpm).sum : Rat) / (library.length : Rat)) ∧
    computeAverageBPM
      [⟨"A", "Test", "House", "Am", 100, .LOW, ""⟩,
       ⟨"B", "Test", "Techno", "Am", 110, .MEDIUM, ""⟩,
       ⟨"C", "Test", "Techno", "Am", 130, .HIGH, ""⟩] = 340 / 3 := by
  refine ⟨by simp [computeAverageBPM], ?_, by norm_num [computeAverageBPM]⟩
  intro lib h
  rw [computeAverageBPM, if_neg (by simpa [List.length_eq_zero] using h)]

/-- Witness for C8: the average over one track of BPM 120 equals the
sum-over-count formula. -/
theorem C8_averageBPM_witness :
    computeAverageBPM [⟨"A", "Test", "House", "Am", 120, .MEDIUM, ""⟩] =
      (((List.map Track.bpm [⟨"A", "Test", "House", "Am", 120, .MEDIUM, ""⟩]).sum : Int) : Rat) /
        ((List.length [(⟨"A", "Test", "House", "Am", 120, .MEDIUM, ""⟩ : Track)]) : Rat) :=
  C8_averageBPM.2.1 [⟨"A", "Test", "House", "Am", 120, .MEDIUM, ""⟩] (by decide)

/-- The constructor establishes the container invariant. -/
theorem inv_mkArr (T : Type) (cap : Int) : (DynamicArray.mkArr T cap).inv := by
  simp only [DynamicArray.inv, DynamicArray.mkArr, List.length_nil]
  split <;> omega

/-- `pushBack` preserves the container invariant. -/
theorem inv_pushBack {T : Type} (a : DynamicArray T) (v : T) (h : a.inv) :
    (a.pushBack v).inv := by
  obtain ⟨h2, hle⟩ := h
  simp only [DynamicArray.inv, DynamicArray.pushBack, List.length_append,
    List.length_cons, List.length_nil]
  split <;> omega

/-- `removeAt` preserves the container invariant. -/
theorem inv_removeAt {T : Type} (a : DynamicArray T) (i : Int) (h : a.inv) :
    ((a.removeAt i).2).inv := by
  obtain ⟨h2, hle⟩ := h
  by_cases hb : i < 0 ∨ (a.items.length : Int) ≤ i
  · simpa [DynamicArray.removeAt, hb, DynamicArray.inv] using ⟨h2, hle⟩
  · simp only [DynamicArray.removeAt, if_neg hb, DynamicArray.inv, List.length_append,
      List.length_take, List.length_drop]
    split
    · next hc => exact ⟨by omega, by omega⟩
    · exact ⟨h2, by omega⟩

/-- Claim C9: after construction with any requested capacity and after
every sequence of `pushBack` and `removeAt` operations, the container
satisfies `2 ≤ capacity` and `size ≤ capacity`. -/
theorem C9_invariant (T : Type) (cap : Int) (ops : List (ArrOp T)) :
    (runArrOps T cap ops).inv := by
  suffices h : ∀ (a : DynamicArray T), a.inv → (ops.foldl applyArrOp a).inv by
    exact h _ (inv_mkArr T cap)
  induction ops with
  | nil => exact fun a ha => ha
  | cons op rest ih =>
      intro a ha
      simp only [List.foldl_cons]
      apply ih
      cases op with
      | push v => exact inv_pushBack a v ha
      | remove i => exact inv_removeAt a i ha

/-- Claim C10: a track satisfies the energy condition of the
recommendation rule exactly when its energy integer equals the current
one or the current one plus 1 (over the encoding Low = 1, Medium = 2,
High = 3); at current energy High only High passes, so every
recommended track at current energy High has energy High (the rule
saturates at the top). -/
theorem C10_energy_step :
    (∀ e c : EnergyLevel, energyCondition e c = true ↔
      (e.toInt = c.toInt ∨ e.toInt = c.toInt + 1)) ∧
    (∀ e : EnergyLevel, (energyCondition e .HIGH = true ↔ e = .HIGH)) ∧
    (∀ (library : List Track) (currentBPM : Int) (t : Track),
      t ∈ recommendNextTracks library currentBPM .HIGH → t.energy = .HIGH) := by
  refine ⟨?_, ?_, ?_⟩
  · intro e c
    cases e <;> cases c <;> simp [energyCondition, EnergyLevel.toInt]
  · intro e
    cases e <;> simp [energyCondition, EnergyLevel.toInt]
  · intro lib bpm t ht
    simp only [recommendNextTracks, List.mem_filter, Bool.and_eq_true] at ht
    have hcond := ht.2.2
    cases he : t.energy
    · rw [he] at hcond
      simp [energyCondition, EnergyLevel.toInt] at hcond
    · rw [he] at hcond
      simp [energyCondition, EnergyLevel.toInt] at hcond
    · rfl

/-- Witness for C10: a High-energy track within BPM range of a
High-energy current track is recommended, and its energy is High. -/
theorem C10_energy_step_witness :
    Track.energy ⟨"A", "Test", "House", "Am", 130, .HIGH, ""⟩ = .HIGH :=
  C10_energy_step.2.2 [⟨"A", "Test", "House", "Am", 130, .HIGH, ""⟩] 128
    ⟨"A", "Test", "House", "Am", 130, .HIGH, ""⟩ (by decide)

end DjArchetex
